import Mathlib

/-!
Verification of the wallet-balance-checker application (React/TypeScript).
The embedding below translates the relevant functions of `src/App.tsx`
(the Moralis variant) and of the older CoinGecko variant (market-table
accumulation) into Lean.  JavaScript numbers are modelled as rationals,
JavaScript strings as `String`, `undefined`-able values as `Option`.
-/

/-! ## Address validation (src/App.tsx, `isValidEthereumAddress`) -/

/-- Character class `[a-fA-F0-9]` of the source regex. -/
def isHexDigit (c : Char) : Bool :=
  ('0' ≤ c && c ≤ '9') || ('a' ≤ c && c ≤ 'f') || ('A' ≤ c && c ≤ 'F')

/-- Test of the source regex `^0x[a-fA-F0-9]+$`: the string is `0x`
followed by one or more characters of the class `[a-fA-F0-9]`. -/
def matchesHexRegex (address : String) : Bool :=
  match address.data with
  | c1 :: c2 :: rest => c1 == '0' && c2 == 'x' && !rest.isEmpty && rest.all isHexDigit
  | _ => false

/-- Embedding of `isValidEthereumAddress` from `src/App.tsx`:
`if (!address) return false; if (!/^0x[a-fA-F0-9]+$/.test(address)) return false;
return address.length === 42`. -/
def isValidEthereumAddress (address : String) : Bool :=
  if address.isEmpty then false
  else if !matchesHexRegex address then false
  else address.length == 42

/-- Spec-side description of the accepted address set, written from the
spec's words for the refinement comparison in claim C1: exactly 42
characters total, starting with `0x`, with only hexadecimal digits (at
least one) after the prefix. -/
def specAddressOk (s : String) : Prop :=
  s.length = 42 ∧ s.data.take 2 = ['0', 'x'] ∧ s.data.drop 2 ≠ [] ∧
    ∀ c ∈ s.data.drop 2, isHexDigit c = true

instance (s : String) : Decidable (specAddressOk s) := by
  unfold specAddressOk; infer_instance

/-! ## Number formatting (src/App.tsx, `formatAmount`)

The helpers below reimplement, over `ℚ`, the JavaScript string
conversions used by `formatAmount`: `Number.prototype.toExponential(4)`,
`toPrecision(4)`, `toFixed(4)` and
`Intl.NumberFormat('en-US', \x7bmaximumFractionDigits: 2\x7d)`.
All of them first strip the sign and then round the magnitude to the
nearest representation, ties away from zero, as the ECMAScript
specification does. -/

/-- Decimal digit character for a value in `0..9`. -/
def digitChar (n : ℕ) : Char :=
  Char.ofNat ('0'.toNat + n % 10)

/-- Decimal digits of a natural number, most significant first
(fuel-driven helper). -/
def natDigitsAux : ℕ → ℕ → List Char
  | 0, _ => []
  | _ + 1, 0 => []
  | fuel + 1, n => natDigitsAux fuel (n / 10) ++ [digitChar (n % 10)]

/-- Decimal digits of a natural number, most significant first. -/
def natDigits (n : ℕ) : List Char :=
  if n = 0 then ['0'] else natDigitsAux (n + 1) n

/-- Pad a digit list on the left with zeros up to length `f`. -/
def padZeros (f : ℕ) (l : List Char) : List Char :=
  List.replicate (f - l.length) '0' ++ l

/-- Round to the nearest integer, ties away from zero, for a nonnegative
rational (the rounding used by the ECMAScript number-to-string
conversions after the sign has been stripped). -/
def roundHalfUp (q : ℚ) : ℤ :=
  ⌊q + 1 / 2⌋

/-- Decimal exponent of a positive rational: the integer `e` with
`10 ^ e ≤ q < 10 ^ (e + 1)`. -/
def decExp (q : ℚ) : ℤ :=
  if 1 ≤ q then (Nat.log 10 (⌊q⌋).toNat : ℤ)
  else -(((List.range (Nat.log 10 q.den + 2)).find?
      (fun k => decide (1 ≤ q * 10 ^ k))).getD 0 : ℕ)

/-- Digit-and-sign rendering core of `toFixed`: `neg` is the sign bit
and `n` the magnitude rounded to an integer count of `10 ^ -f` units. -/
def fixedCore (neg : Bool) (f : ℕ) (n : ℕ) : String :=
  (if neg then "-" else "") ++
    (if f = 0 then String.mk (natDigits n)
     else String.mk (natDigits (n / 10 ^ f)) ++ "." ++
       String.mk (padZeros f (natDigits (n % 10 ^ f))))

/-- Model of `Number.prototype.toFixed(f)`. -/
def toFixedQ (f : ℕ) (q : ℚ) : String :=
  fixedCore (decide (q < 0)) f (roundHalfUp (|q| * 10 ^ f)).toNat

/-- Digit-and-sign rendering core of `toExponential(4)`: `m0` is the
magnitude scaled to five significant digits and `e0` its decimal
exponent; a carry into a sixth digit bumps the exponent. -/
def expCore (neg : Bool) (m0 : ℕ) (e0 : ℤ) : String :=
  let m := if 10 ^ 5 ≤ m0 then m0 / 10 else m0
  let e := if 10 ^ 5 ≤ m0 then e0 + 1 else e0
  (if neg then "-" else "") ++ String.mk (natDigits (m / 10 ^ 4)) ++ "." ++
    String.mk (padZeros 4 (natDigits (m % 10 ^ 4))) ++ "e" ++
    (if e < 0 then "-" else "+") ++ String.mk (natDigits e.natAbs)

/-- Model of `Number.prototype.toExponential(4)`. -/
def toExponential4 (q : ℚ) : String :=
  if q = 0 then "0.0000e+0"
  else expCore (decide (q < 0))
    (roundHalfUp (|q| * (10 : ℚ) ^ (4 - decExp |q|))).toNat (decExp |q|)

/-- Digit-and-sign rendering core of `toPrecision(4)`: `n0` is the
magnitude scaled to four significant digits and `e0` its decimal
exponent; a carry bumps the exponent, and the notation (plain or
exponential) follows the ECMAScript rules. -/
def precCore (neg : Bool) (n0 : ℕ) (e0 : ℤ) : String :=
  let n := if 10 ^ 4 ≤ n0 then n0 / 10 else n0
  let e := if 10 ^ 4 ≤ n0 then e0 + 1 else e0
  (if neg then "-" else "") ++
    (if e < -6 ∨ 4 ≤ e then
      String.mk (natDigits (n / 10 ^ 3)) ++ "." ++
        String.mk (padZeros 3 (natDigits (n % 10 ^ 3))) ++ "e" ++
        (if e < 0 then "-" else "+") ++ String.mk (natDigits e.natAbs)
    else if e = 3 then String.mk (natDigits n)
    else if 0 ≤ e then
      String.mk (natDigits (n / 10 ^ (3 - e).toNat)) ++ "." ++
        String.mk (padZeros (3 - e).toNat (natDigits (n % 10 ^ (3 - e).toNat)))
    else
      "0." ++ String.mk (List.replicate (e.natAbs - 1) '0') ++
        String.mk (padZeros 4 (natDigits n)))

/-- Model of `Number.prototype.toPrecision(4)`. -/
def toPrecision4 (q : ℚ) : String :=
  if q = 0 then "0.000"
  else precCore (decide (q < 0))
    (roundHalfUp (|q| * (10 : ℚ) ^ (3 - decExp |q|))).toNat (decExp |q|)

/-- Insert thousands separators (`,`) into a reversed digit list. -/
def groupRev : List Char → ℕ → List Char
  | [], _ => []
  | c :: cs, k =>
    if k = 3 then ',' :: c :: groupRev cs 1
    else c :: groupRev cs (k + 1)

/-- Group the digits of an integer part the way
`Intl.NumberFormat('en-US')` does. -/
def groupDigits (l : List Char) : List Char :=
  (groupRev l.reverse 0).reverse

/-- Digit-and-sign rendering core of the locale format: `n` is the
magnitude in rounded cents; trailing fraction zeros are dropped. -/
def intlCore (neg : Bool) (n : ℕ) : String :=
  let ipStr := String.mk (groupDigits (natDigits (n / 100)))
  let fp := n % 100
  (if neg then "-" else "") ++
    (if fp = 0 then ipStr
     else if fp % 10 = 0 then ipStr ++ "." ++ String.mk (natDigits (fp / 10))
     else ipStr ++ "." ++ String.mk (padZeros 2 (natDigits fp)))

/-- Model of `Intl.NumberFormat('en-US', \x7b maximumFractionDigits: 2 \x7d)`:
grouped integer part, at most two fraction digits, trailing zeros of the
fraction removed (the default `minimumFractionDigits` is 0). -/
def intlFormatMax2 (q : ℚ) : String :=
  intlCore (decide (q < 0)) (roundHalfUp (|q| * 100)).toNat

/-- Embedding of `formatAmount` from `src/App.tsx`:
`if (amount === 0) return '0'; if (amount < 0.0001) return amount.toExponential(4);
if (amount < 1) return amount.toPrecision(4); if (amount < 1000) return amount.toFixed(4);
return new Intl.NumberFormat('en-US', \x7bmaximumFractionDigits: 2\x7d).format(amount)`.
Note the comparisons are on the signed value, not the magnitude. -/
def formatAmount (amount : ℚ) : String :=
  if amount = 0 then "0"
  else if amount < 1 / 10000 then toExponential4 amount
  else if amount < 1 then toPrecision4 amount
  else if amount < 1000 then toFixedQ 4 amount
  else intlFormatMax2 amount

/-- Spec-side formatting policy, written from the spec's words for the
refinement comparison in claim C5: the branch is selected by the
magnitude of the argument. -/
def specFormatAmount (amount : ℚ) : String :=
  if amount = 0 then "0"
  else if |amount| < 1 / 10000 then toExponential4 amount
  else if |amount| < 1 then toPrecision4 amount
  else if |amount| < 1000 then toFixedQ 4 amount
  else intlFormatMax2 amount

/-! ## Token balances and the balance-fetch state machine (src/App.tsx) -/

/-- Embedding of the `TokenBalance` interface of `src/App.tsx` (Moralis
variant). JavaScript `number` fields are rationals, optional fields are
`Option`. -/
structure TokenBalance where
  token_address : String
  symbol : String
  name : String
  logo : Option String
  thumbnail : Option String
  decimals : ℕ
  balance : String
  balance_formatted : String
  possible_spam : Bool
  verified_contract : Bool
  usd_price : ℚ
  usd_value : ℚ
  native_token : Bool
  portfolio_percentage : ℚ
  usd_price_24hr_percent_change : ℚ
  usd_price_24hr_usd_change : ℚ
deriving DecidableEq

/-- Descending comparison used by the source sort
`(a, b) => b.usd_value - a.usd_value`: `a` may come before `b` exactly
when the comparator is nonpositive. -/
def usdGe (a b : TokenBalance) : Prop :=
  b.usd_value ≤ a.usd_value

instance : DecidableRel usdGe := fun a b => by unfold usdGe; infer_instance

instance : IsTotal TokenBalance usdGe :=
  ⟨fun a b => le_total b.usd_value a.usd_value⟩

instance : IsTrans TokenBalance usdGe :=
  ⟨fun _ _ _ h1 h2 => le_trans h2 h1⟩

/-- Model of `validTokens.sort((a, b) => b.usd_value - a.usd_value)`:
a stable sort into descending `usd_value` order. -/
def sortByUsdDesc (l : List TokenBalance) : List TokenBalance :=
  l.insertionSort usdGe

/-- Filter of `src/App.tsx` line 140: keep tokens that are not possible
spam and have a positive USD value. -/
def isValidToken (t : TokenBalance) : Bool :=
  !t.possible_spam && decide (0 < t.usd_value)

/-- User-facing message for an empty address. -/
def msgEnterAddress : String := "Lütfen bir cüzdan adresi girin"

/-- User-facing message for a missing Moralis API key. -/
def msgNoApiKey : String := "Moralis API anahtarı bulunamadı!"

/-- User-facing message for an invalid address. -/
def msgInvalidAddress : String :=
  "Geçersiz Ethereum adresi! Adres 0x ile başlamalı ve 42 karakter uzunluğunda olmalıdır."

/-- User-facing message for HTTP 429. -/
def msgRateLimit : String :=
  "API istek limiti aşıldı. Lütfen biraz bekleyip tekrar deneyin."

/-- Generic fallback error message. -/
def msgGenericError : String := "Veri çekilirken bir hata oluştu"

/-- The observable pieces of an axios error used by the catch block:
`error.response?.status`, `error.response?.data?.message` and
`error.message`. -/
structure AxiosError where
  responseStatus : Option ℕ
  responseDataMessage : Option String
  message : Option String
deriving DecidableEq

/-- JavaScript `a || b` for a possibly-absent string `a`: `b` when `a`
is `undefined` or the empty string (falsy), else `a`. -/
def jsOrStr (o : Option String) (alt : String) : String :=
  match o with
  | some s => if s.isEmpty then alt else s
  | none => alt

/-- Message selection of the catch block of `fetchBalances`:
`if (error.response?.status === 429) ... else error.response?.data?.message
|| error.message || errorMessage`. -/
def errorMessageFor (e : AxiosError) : String :=
  if e.responseStatus = some 429 then msgRateLimit
  else jsOrStr e.responseDataMessage (jsOrStr e.message msgGenericError)

/-- Embedding of `addToRecent` from `src/App.tsx`:
`[newAddress, ...recentAddresses.filter(addr => addr !== newAddress)].slice(0, 5)`.
The returned list is both stored in the component state and persisted to
local storage. -/
def addToRecent (newAddress : String) (recentAddresses : List String) : List String :=
  (newAddress :: recentAddresses.filter (fun addr => addr ≠ newAddress)).take 5

/-- JavaScript truthiness of the `MORALIS_API_KEY` environment value:
truthy iff present and nonempty. -/
def keyTruthy : Option String → Bool
  | none => false
  | some s => !s.isEmpty

/-- Component state of `App` (the fields the balance-fetch logic reads
or writes). -/
structure AppState where
  address : String
  loading : Bool
  balances : List TokenBalance
  allBalances : List TokenBalance
  showAll : Bool
  totalValue : ℚ
  error : Option String
  recentAddresses : List String
deriving DecidableEq

/-- Initial component state; `saved` is the recent-address list restored
from local storage by the mount effect. -/
def initialState (saved : List String) : AppState :=
  { address := "", loading := false, balances := [], allBalances := [],
    showAll := false, totalValue := 0, error := none, recentAddresses := saved }

/-- Outcome of the awaited Moralis request inside `fetchBalances`. -/
inductive FetchResult where
  | success (result : List TokenBalance)
  | failure (e : AxiosError)
deriving DecidableEq

/-- Embedding of `fetchBalances` from `src/App.tsx`, returning the new
component state together with the number of network calls performed.
The three validation guards return early with an error and no request;
otherwise the address is added to the recent list, the display state is
cleared, one request is made and its outcome processed. -/
def fetchBalances (s : AppState) (apiKey : Option String) (r : FetchResult) :
    AppState × ℕ :=
  if s.address.isEmpty then ({ s with error := some msgEnterAddress }, 0)
  else if !keyTruthy apiKey then ({ s with error := some msgNoApiKey }, 0)
  else if !isValidEthereumAddress s.address then
    ({ s with error := some msgInvalidAddress }, 0)
  else
    let s1 : AppState :=
      { s with recentAddresses := addToRecent s.address s.recentAddresses,
               loading := true, error := none, balances := [],
               allBalances := [], showAll := false }
    match r with
    | FetchResult.success tokens =>
      let validTokens := tokens.filter isValidToken
      let sortedBalances := sortByUsdDesc validTokens
      let filteredBalances := sortedBalances.filter (fun t => decide (10 ≤ t.usd_value))
      let total := sortedBalances.foldl (fun acc t => acc + t.usd_value) 0
      ({ s1 with allBalances := sortedBalances, balances := filteredBalances,
                 totalValue := total, loading := false }, 1)
    | FetchResult.failure e =>
      ({ s1 with error := some ("Hata: " ++ errorMessageFor e), loading := false }, 1)

/-- The three validation guards of `fetchBalances` as one test. -/
def passesValidation (address : String) (apiKey : Option String) : Bool :=
  !address.isEmpty && keyTruthy apiKey && isValidEthereumAddress address

/-- User-interface events that affect the embedded state. -/
inductive Event where
  | setAddress (a : String)
  | toggleShowAll
  | submit (apiKey : Option String) (r : FetchResult)

/-- One step of the user interface: typing an address, toggling the
small-balance view, or submitting (which runs `fetchBalances`).  The
second component counts network calls made by the step. -/
def step (s : AppState) (e : Event) : AppState × ℕ :=
  match e with
  | Event.setAddress a => ({ s with address := a }, 0)
  | Event.toggleShowAll => ({ s with showAll := !s.showAll }, 0)
  | Event.submit apiKey r => fetchBalances s apiKey r

/-- States reachable from some initial state by user-interface steps. -/
inductive Reachable : AppState → Prop where
  | init (saved : List String) : Reachable (initialState saved)
  | next {s : AppState} (e : Event) (h : Reachable s) : Reachable (step s e).1

/-! ## Market-table accumulation (CoinGecko variant of `App.tsx`) -/

/-- Raw market entry as returned by `GET /coins/markets` and consumed by
the accumulation effect of the CoinGecko variant. -/
structure RawMarketToken where
  id : String
  symbol : String
  name : String
  image : String
  current_price : Option ℚ
deriving DecidableEq

/-- Embedding of the `TopToken` interface of the CoinGecko variant. -/
structure TopToken where
  id : String
  symbol : String
  name : String
  image : String
  current_price : ℚ
deriving DecidableEq

/-- Conversion performed for each token of a fetched page:
`updatedTokens[token.id] = { id, symbol: token.symbol.toUpperCase(),
name, current_price: token.current_price || 0, image }`. -/
def toTopToken (t : RawMarketToken) : TopToken :=
  { id := t.id, symbol := t.symbol.toUpper, name := t.name,
    image := t.image, current_price := t.current_price.getD 0 }

/-- The accumulated `topTokens` mapping, keyed by provider id. -/
def TokenMap : Type := String → Option TopToken

/-- Embedding of the page-accumulation step of the CoinGecko variant:
`response.data.forEach(token => updatedTokens[token.id] = ...)` over the
previous mapping. -/
def upsertPage (m : TokenMap) (page : List RawMarketToken) : TokenMap :=
  page.foldl
    (fun acc t => fun i => if i = t.id then some (toTopToken t) else acc i) m

/-! ## Concrete sample data used by witnesses and counterexamples -/

/-- Sample token with the given symbol, spam flag and USD value. -/
def mkToken (sym : String) (spam : Bool) (v : ℚ) : TokenBalance :=
  { token_address := sym, symbol := sym, name := sym, logo := none,
    thumbnail := none, decimals := 18, balance := "0", balance_formatted := "0",
    possible_spam := spam, verified_contract := true, usd_price := 0,
    usd_value := v, native_token := false, portfolio_percentage := 0,
    usd_price_24hr_percent_change := 0, usd_price_24hr_usd_change := 0 }

/-- A well-formed 42-character sample address. -/
def addr42 : String := "0xaaaaaaaaaaaaaaaaaaaaaaaaaaaaaaaaaaaaaaaa"

/-- A 41-character sample address (one hexadecimal digit short). -/
def addr41 : String := "0xaaaaaaaaaaaaaaaaaaaaaaaaaaaaaaaaaaaaaaa"

/-- A sample transport error without payload. -/
def err500 : AxiosError :=
  { responseStatus := some 500, responseDataMessage := none, message := none }

/-- State reached after one successful fetch of a single 15-dollar token
from a fresh session with a valid address. -/
def c4state1 : AppState :=
  (fetchBalances { initialState [] with address := addr42 } (some "k")
    (FetchResult.success [mkToken "B" false 15])).1

/-- The same session after the user erases the address field. -/
def c4state2 : AppState :=
  (step c4state1 (Event.setAddress "")).1

/-! ## Helper lemmas -/

/-- Characterisation of the regex test on the character list. -/
theorem matchesHexRegex_eq_true_iff (s : String) :
    matchesHexRegex s = true ↔
      s.data.take 2 = ['0', 'x'] ∧ s.data.drop 2 ≠ [] ∧
        ∀ c ∈ s.data.drop 2, isHexDigit c = true := by
  unfold matchesHexRegex
  match h : s.data with
  | [] => simp
  | [c] => simp
  | c1 :: c2 :: rest =>
    simp [List.all_eq_true, List.isEmpty_iff, Bool.and_eq_true, beq_iff_eq]
    tauto

/-- The validator accepts exactly the strings the spec describes. -/
theorem isValidEthereumAddress_iff (s : String) :
    isValidEthereumAddress s = true ↔ specAddressOk s := by
  by_cases he : s = ""
  · subst he
    decide
  · have he' : s.isEmpty = false := by
      rw [Bool.eq_false_iff]
      intro h
      exact he ((String.isEmpty_iff s).mp h)
    rcases Bool.eq_false_or_eq_true (matchesHexRegex s) with hm | hm
    · have hc := (matchesHexRegex_eq_true_iff s).mp hm
      unfold isValidEthereumAddress specAddressOk
      simp only [he', hm, Bool.not_true, Bool.false_eq_true, if_false, beq_iff_eq]
      exact ⟨fun hl => ⟨hl, hc.1, hc.2.1, hc.2.2⟩, fun hs => hs.1⟩
    · unfold isValidEthereumAddress
      simp only [he', hm, Bool.not_false, if_true, Bool.false_eq_true, if_false,
        false_iff]
      intro hs
      have hmm : matchesHexRegex s = true :=
        (matchesHexRegex_eq_true_iff s).mpr ⟨hs.2.1, hs.2.2.1, hs.2.2.2⟩
      rw [hm] at hmm
      exact absurd hmm (by simp)

/-- Sorting model is sorted in descending usd order. -/
theorem sortByUsdDesc_sorted (l : List TokenBalance) :
    (sortByUsdDesc l).Pairwise usdGe :=
  List.sorted_insertionSort usdGe l

/-- Sorting model is a permutation of its input. -/
theorem sortByUsdDesc_perm (l : List TokenBalance) :
    (sortByUsdDesc l).Perm l :=
  List.perm_insertionSort usdGe l

/-- Membership is preserved by the sorting model. -/
theorem mem_sortByUsdDesc {t : TokenBalance} {l : List TokenBalance} :
    t ∈ sortByUsdDesc l ↔ t ∈ l :=
  (sortByUsdDesc_perm l).mem_iff

/-- The fold used for the total accumulates the sum of usd values. -/
theorem foldl_add_usd (l : List TokenBalance) (a : ℚ) :
    l.foldl (fun acc t => acc + t.usd_value) a =
      a + (l.map TokenBalance.usd_value).sum := by
  induction l generalizing a with
  | nil => simp
  | cons t ts ih => simp [ih, add_assoc]

/-- Shape of the state after a successful fetch on the valid path. -/
theorem fetchBalances_success_eq (s : AppState) (key : Option String)
    (tokens : List TokenBalance) (h : passesValidation s.address key = true) :
    fetchBalances s key (FetchResult.success tokens) =
      ({ s with
          recentAddresses := addToRecent s.address s.recentAddresses,
          loading := false, error := none, showAll := false,
          allBalances := sortByUsdDesc (tokens.filter isValidToken),
          balances := (sortByUsdDesc (tokens.filter isValidToken)).filter
            (fun t => decide (10 ≤ t.usd_value)),
          totalValue := (sortByUsdDesc (tokens.filter isValidToken)).foldl
            (fun acc t => acc + t.usd_value) 0 }, 1) := by
  unfold passesValidation at h
  simp only [Bool.and_eq_true, Bool.not_eq_true'] at h
  obtain ⟨⟨h1, h2⟩, h3⟩ := h
  unfold fetchBalances
  simp [h1, h2, h3]

/-- Shape of the state after a failed request on the valid path. -/
theorem fetchBalances_failure_eq (s : AppState) (key : Option String)
    (e : AxiosError) (h : passesValidation s.address key = true) :
    fetchBalances s key (FetchResult.failure e) =
      ({ s with
          recentAddresses := addToRecent s.address s.recentAddresses,
          loading := false, error := some ("Hata: " ++ errorMessageFor e),
          balances := [], allBalances := [], showAll := false }, 1) := by
  unfold passesValidation at h
  simp only [Bool.and_eq_true, Bool.not_eq_true'] at h
  obtain ⟨⟨h1, h2⟩, h3⟩ := h
  unfold fetchBalances
  simp [h1, h2, h3]

/-- On a validation failure, `fetchBalances` only sets an error: the
lists, total and recent addresses are untouched and no request is made. -/
theorem fetchBalances_invalid_eq (s : AppState) (key : Option String)
    (r : FetchResult) (h : passesValidation s.address key = false) :
    (fetchBalances s key r).1.balances = s.balances ∧
    (fetchBalances s key r).1.allBalances = s.allBalances ∧
    (fetchBalances s key r).1.totalValue = s.totalValue ∧
    (fetchBalances s key r).1.recentAddresses = s.recentAddresses ∧
    (fetchBalances s key r).1.error.isSome = true ∧
    (fetchBalances s key r).2 = 0 := by
  unfold passesValidation at h
  unfold fetchBalances
  by_cases h1 : s.address.isEmpty
  · simp [h1]
  · by_cases h2 : keyTruthy key
    · by_cases h3 : isValidEthereumAddress s.address
      · rw [Bool.not_eq_true] at h1
        simp [h1, h2, h3] at h
      · simp [h1, h2, h3]
    · simp [h1, h2]

/-! ## Claims -/

/-- C1: the address validator accepts a string exactly when it matches
`^0x[0-9a-fA-F]+$` and has exactly 42 characters (hence it rejects the
empty string, strings with a non-hexadecimal character after `0x`, and
strings of any other length), and a submit with a rejected address makes
no network call and reports an error. -/
theorem c1_address_validation (s : String) :
    (isValidEthereumAddress s = true ↔ specAddressOk s) ∧
    (isValidEthereumAddress s = false →
      ∀ (st : AppState) (key : Option String) (r : FetchResult),
        st.address = s →
          (step st (Event.submit key r)).2 = 0 ∧
          (step st (Event.submit key r)).1.error.isSome = true) := by
  refine ⟨isValidEthereumAddress_iff s, ?_⟩
  intro hinv st key r haddr
  subst haddr
  show (fetchBalances st key r).2 = 0 ∧ (fetchBalances st key r).1.error.isSome = true
  unfold fetchBalances
  by_cases h1 : st.address.isEmpty
  · simp [h1]
  · by_cases h2 : keyTruthy key
    · simp [h1, h2, hinv]
    · simp [h1, h2]

/-- Witness for C1 at a concrete rejected input. -/
theorem c1_address_validation_witness :
    isValidEthereumAddress addr41 = false ∧
    (step { initialState [] with address := addr41 }
       (Event.submit (some "testkey") (FetchResult.success []))).2 = 0 :=
  ⟨by decide,
   ((c1_address_validation addr41).2 (by decide)
     { initialState [] with address := addr41 } (some "testkey")
     (FetchResult.success []) rfl).1⟩

/-- C2: after a successful fetch on the valid path, the stored
all-balances list is sorted in descending order of `usd_value`, the
filtered list is exactly the entries of that sorted sequence with
`usd_value ≥ 10`, and the displayed total is the sum of `usd_value` over
the full sorted list. -/
theorem c2_success_sorted_filtered_total (s : AppState) (key : Option String)
    (tokens : List TokenBalance) (h : passesValidation s.address key = true) :
    ((fetchBalances s key (FetchResult.success tokens)).1.allBalances).Pairwise usdGe ∧
    (fetchBalances s key (FetchResult.success tokens)).1.balances =
      ((fetchBalances s key (FetchResult.success tokens)).1.allBalances).filter
        (fun t => decide (10 ≤ t.usd_value)) ∧
    (fetchBalances s key (FetchResult.success tokens)).1.totalValue =
      (((fetchBalances s key (FetchResult.success tokens)).1.allBalances).map
        TokenBalance.usd_value).sum := by
  rw [fetchBalances_success_eq s key tokens h]
  refine ⟨sortByUsdDesc_sorted _, rfl, ?_⟩
  show (sortByUsdDesc (tokens.filter isValidToken)).foldl
      (fun acc t => acc + t.usd_value) 0 = _
  rw [foldl_add_usd]
  simp

/-- Witness for C2 on a concrete out-of-order token list. -/
theorem c2_success_sorted_filtered_total_witness :
    passesValidation addr42 (some "k") = true ∧
    (((fetchBalances { initialState [] with address := addr42 } (some "k")
        (FetchResult.success [mkToken "A" false 5, mkToken "B" false 15])).1.allBalances).Pairwise usdGe ∧
     (fetchBalances { initialState [] with address := addr42 } (some "k")
        (FetchResult.success [mkToken "A" false 5, mkToken "B" false 15])).1.balances =
       ((fetchBalances { initialState [] with address := addr42 } (some "k")
          (FetchResult.success [mkToken "A" false 5, mkToken "B" false 15])).1.allBalances).filter
         (fun t => decide (10 ≤ t.usd_value)) ∧
     (fetchBalances { initialState [] with address := addr42 } (some "k")
        (FetchResult.success [mkToken "A" false 5, mkToken "B" false 15])).1.totalValue =
       (((fetchBalances { initialState [] with address := addr42 } (some "k")
          (FetchResult.success [mkToken "A" false 5, mkToken "B" false 15])).1.allBalances).map
         TokenBalance.usd_value).sum) :=
  ⟨by decide,
   c2_success_sorted_filtered_total _ (some "k") _ (by decide)⟩

/-- C3: in every reachable state, the displayed (filtered) balances list
is exactly the subset of `allBalances` with `usd_value ≥ 10`, in the
same relative order, and `allBalances` is sorted descending. -/
theorem c3_balances_invariant (s : AppState) (h : Reachable s) :
    s.balances = s.allBalances.filter (fun t => decide (10 ≤ t.usd_value)) ∧
    s.allBalances.Pairwise usdGe := by
  induction h with
  | init saved => exact ⟨rfl, List.Pairwise.nil⟩
  | @next s' e h ih =>
    cases e with
    | setAddress a => exact ih
    | toggleShowAll => exact ih
    | submit key r =>
      have hstep : (step s' (Event.submit key r)).1 = (fetchBalances s' key r).1 := rfl
      rw [hstep]
      rcases Bool.eq_false_or_eq_true (passesValidation s'.address key) with hv | hv
      · cases r with
        | success tokens =>
          rw [fetchBalances_success_eq s' key tokens hv]
          exact ⟨rfl, sortByUsdDesc_sorted _⟩
        | failure e' =>
          rw [fetchBalances_failure_eq s' key e' hv]
          exact ⟨rfl, List.Pairwise.nil⟩
      · have hinv := fetchBalances_invalid_eq s' key r hv
        rw [hinv.1, hinv.2.1]
        exact ih

/-- Witness for C3 at a concrete reachable state after one fetch. -/
theorem c3_balances_invariant_witness :
    Reachable (step (step (initialState []) (Event.setAddress addr42)).1
      (Event.submit (some "k") (FetchResult.success [mkToken "A" false 5]))).1 ∧
    ((step (step (initialState []) (Event.setAddress addr42)).1
        (Event.submit (some "k") (FetchResult.success [mkToken "A" false 5]))).1.balances =
      ((step (step (initialState []) (Event.setAddress addr42)).1
        (Event.submit (some "k") (FetchResult.success [mkToken "A" false 5]))).1.allBalances).filter
        (fun t => decide (10 ≤ t.usd_value)) ∧
     ((step (step (initialState []) (Event.setAddress addr42)).1
        (Event.submit (some "k") (FetchResult.success [mkToken "A" false 5]))).1.allBalances).Pairwise usdGe) :=
  ⟨Reachable.next _ (Reachable.next _ (Reachable.init [])),
   c3_balances_invariant _ (Reachable.next _ (Reachable.next _ (Reachable.init [])))⟩

/-- C4 counterexample: after a successful fetch (balances shown, total
15), erasing the address and submitting yields a validation error that
leaves the old balances list and the old total in place, and a failed
request on the valid path also leaves the old total in place — contrary
to the claim that every error clears both. -/
theorem c4_counterexample :
    (step c4state2 (Event.submit (some "k") (FetchResult.success []))).1.error =
      some msgEnterAddress ∧
    (step c4state2 (Event.submit (some "k") (FetchResult.success []))).1.balances ≠ [] ∧
    (step c4state2 (Event.submit (some "k") (FetchResult.success []))).1.totalValue = 15 ∧
    (step c4state1 (Event.submit (some "k") (FetchResult.failure err500))).1.error =
      some ("Hata: " ++ msgGenericError) ∧
    (step c4state1 (Event.submit (some "k") (FetchResult.failure err500))).1.totalValue = 15 := by
  have h1 : c4state1 =
      { address := addr42, loading := false,
        balances := [mkToken "B" false 15], allBalances := [mkToken "B" false 15],
        showAll := false, totalValue := 15, error := none,
        recentAddresses := [addr42] } := by
    unfold c4state1
    rw [fetchBalances_success_eq _ _ _ (by decide)]
    simp [initialState, addToRecent, sortByUsdDesc, List.insertionSort,
      List.orderedInsert, isValidToken, mkToken]
    norm_num
  have h2 : c4state2 =
      { address := "", loading := false,
        balances := [mkToken "B" false 15], allBalances := [mkToken "B" false 15],
        showAll := false, totalValue := 15, error := none,
        recentAddresses := [addr42] } := by
    unfold c4state2
    rw [h1]
    rfl
  have hstep2 : step c4state2 (Event.submit (some "k") (FetchResult.success [])) =
      fetchBalances c4state2 (some "k") (FetchResult.success []) := rfl
  have hf2 : fetchBalances c4state2 (some "k") (FetchResult.success []) =
      ({ c4state2 with error := some msgEnterAddress }, 0) := by
    rw [h2]
    rfl
  have hstep1 : step c4state1 (Event.submit (some "k") (FetchResult.failure err500)) =
      fetchBalances c4state1 (some "k") (FetchResult.failure err500) := rfl
  have hf1 := fetchBalances_failure_eq c4state1 (some "k") err500
    (by rw [h1]; decide)
  refine ⟨?_, ?_, ?_, ?_, ?_⟩
  · rw [hstep2, hf2, h2]
  · rw [hstep2, hf2, h2]
    simp
  · rw [hstep2, hf2, h2]
  · rw [hstep1, hf1]
    simp [errorMessageFor, err500, jsOrStr]
  · rw [hstep1, hf1, h1]

/-- C4 (amended): on a validation error the previously displayed
balances lists and total are left unchanged (only an error is set); on a
failed request the balances lists are cleared but the displayed total
value keeps its previous value. -/
theorem c4_error_paths (s : AppState) (key : Option String) (r : FetchResult)
    (e : AxiosError) :
    (passesValidation s.address key = false →
      (fetchBalances s key r).1.balances = s.balances ∧
      (fetchBalances s key r).1.allBalances = s.allBalances ∧
      (fetchBalances s key r).1.totalValue = s.totalValue ∧
      (fetchBalances s key r).1.error.isSome = true) ∧
    (passesValidation s.address key = true →
      (fetchBalances s key (FetchResult.failure e)).1.balances = [] ∧
      (fetchBalances s key (FetchResult.failure e)).1.allBalances = [] ∧
      (fetchBalances s key (FetchResult.failure e)).1.totalValue = s.totalValue ∧
      (fetchBalances s key (FetchResult.failure e)).1.error.isSome = true) := by
  constructor
  · intro hv
    have hinv := fetchBalances_invalid_eq s key r hv
    exact ⟨hinv.1, hinv.2.1, hinv.2.2.1, hinv.2.2.2.2.1⟩
  · intro hv
    rw [fetchBalances_failure_eq s key e hv]
    exact ⟨rfl, rfl, rfl, rfl⟩

/-- Witness for C4 (amended) at concrete inputs: an invalid submit and a
failed request. -/
theorem c4_error_paths_witness :
    (passesValidation c4state2.address (some "k") = false ∧
      (fetchBalances c4state2 (some "k")
        (FetchResult.success [])).1.totalValue = c4state2.totalValue) ∧
    (passesValidation c4state1.address (some "k") = true ∧
      (fetchBalances c4state1 (some "k")
        (FetchResult.failure err500)).1.totalValue = c4state1.totalValue) :=
  ⟨⟨by decide,
    ((c4_error_paths c4state2 (some "k") (FetchResult.success []) err500).1
      (by decide)).2.2.1⟩,
   ⟨by decide,
    ((c4_error_paths c4state1 (some "k") (FetchResult.success []) err500).2
      (by decide)).2.2.1⟩⟩

/-- Evaluation of the decimal exponent of `1/20000`. -/
theorem decExp_inv20000 : decExp (1 / 20000 : ℚ) = -5 := by
  rw [decExp, if_neg (by norm_num)]
  have hden : (1 / 20000 : ℚ).den = 20000 := by norm_num
  have hlog : Nat.log 10 20000 = 4 :=
    Nat.log_eq_of_pow_le_of_lt_pow (by norm_num) (by norm_num)
  rw [hden, hlog]
  have hrange : List.range (4 + 2) = [0, 1, 2, 3, 4, 5] := by decide
  rw [hrange]
  rw [List.find?_cons_of_neg _ (by norm_num), List.find?_cons_of_neg _ (by norm_num),
    List.find?_cons_of_neg _ (by norm_num), List.find?_cons_of_neg _ (by norm_num),
    List.find?_cons_of_neg _ (by norm_num), List.find?_cons_of_pos _ (by norm_num)]
  rfl

/-- Evaluation of the decimal exponent of `5`. -/
theorem decExp_five : decExp (5 : ℚ) = 0 := by
  rw [decExp, if_pos (by norm_num)]
  have hfl : ⌊(5 : ℚ)⌋ = 5 := by norm_num
  rw [hfl]
  have hlog : Nat.log 10 (Int.toNat 5) = 0 :=
    Nat.log_eq_of_pow_le_of_lt_pow (by decide) (by decide)
  rw [hlog]
  rfl

/-- Evaluation of the exponential form of `0.00005`. -/
theorem texp_inv20000 : toExponential4 (1 / 20000 : ℚ) = "5.0000e-5" := by
  rw [toExponential4, if_neg (by norm_num)]
  have habs : |(1 / 20000 : ℚ)| = 1 / 20000 := abs_of_pos (by norm_num)
  rw [habs, decExp_inv20000]
  have hm : roundHalfUp ((1 / 20000 : ℚ) * (10 : ℚ) ^ (4 - (-5 : ℤ))) = 50000 := by
    rw [roundHalfUp]
    norm_num
  rw [hm]
  have hneg : decide ((1 / 20000 : ℚ) < 0) = false := by norm_num
  rw [hneg]
  decide

/-- Evaluation of the fixed four-decimal form of `-5`. -/
theorem tfix_minus5 : toFixedQ 4 (-5 : ℚ) = "-5.0000" := by
  rw [toFixedQ]
  have habs : |(-5 : ℚ)| = 5 := by norm_num
  rw [habs]
  have hm : roundHalfUp ((5 : ℚ) * 10 ^ 4) = 50000 := by
    rw [roundHalfUp]; norm_num
  rw [hm]
  have hneg : decide ((-5 : ℚ) < 0) = true := by norm_num
  rw [hneg]
  decide

/-- Evaluation of the exponential form of `-5`. -/
theorem texp_minus5 : toExponential4 (-5 : ℚ) = "-5.0000e+0" := by
  rw [toExponential4, if_neg (by norm_num)]
  have habs : |(-5 : ℚ)| = 5 := by norm_num
  rw [habs, decExp_five]
  have hm : roundHalfUp ((5 : ℚ) * (10 : ℚ) ^ (4 - (0 : ℤ))) = 50000 := by
    rw [roundHalfUp]; norm_num
  rw [hm]
  have hneg : decide ((-5 : ℚ) < 0) = true := by norm_num
  rw [hneg]
  decide

/-- Evaluation of the fixed four-decimal form of `123.456789`. -/
theorem tfix_123 : toFixedQ 4 (123.456789 : ℚ) = "123.4568" := by
  rw [toFixedQ]
  have habs : |(123.456789 : ℚ)| = 123.456789 := abs_of_pos (by norm_num)
  rw [habs]
  have hm : roundHalfUp ((123.456789 : ℚ) * 10 ^ 4) = 1234568 := by
    rw [roundHalfUp]; norm_num
  rw [hm]
  have hneg : decide ((123.456789 : ℚ) < 0) = false := by norm_num
  rw [hneg]
  decide

/-- C5 counterexample: the magnitude of `-5` lies in `[1, 1000)`, so the
claim requires the fixed four-decimal form `"-5.0000"`, but the code
compares the signed value (`-5 < 0.0001`) and returns exponential
notation. -/
theorem c5_counterexample :
    formatAmount (-5 : ℚ) = "-5.0000e+0" ∧
    toFixedQ 4 (-5 : ℚ) = "-5.0000" ∧
    formatAmount (-5 : ℚ) ≠ toFixedQ 4 (-5 : ℚ) ∧
    (1 : ℚ) ≤ |(-5 : ℚ)| ∧ |(-5 : ℚ)| < 1000 := by
  have h1 : formatAmount (-5 : ℚ) = "-5.0000e+0" := by
    rw [formatAmount, if_neg (by norm_num), if_pos (by norm_num)]
    exact texp_minus5
  refine ⟨h1, tfix_minus5, ?_, by norm_num, by norm_num⟩
  rw [h1, tfix_minus5]
  decide

/-- C5 (amended): for every nonnegative amount the code's branch
selection agrees with the spec's magnitude-based policy (zero, then
exponential below `0.0001`, four significant digits below 1, four fixed
decimals below 1000, locale grouping above), and the concrete
evaluations of the claim hold: `formatAmount 123.456789 = "123.4568"`
and `formatAmount 0.00005` is the exponential string `"5.0000e-5"`. -/
theorem c5_format_amount (a : ℚ) (h : 0 ≤ a) :
    formatAmount a = specFormatAmount a ∧
    formatAmount (123.456789 : ℚ) = "123.4568" ∧
    formatAmount (1 / 20000 : ℚ) = "5.0000e-5" := by
  refine ⟨?_, ?_, ?_⟩
  · rw [formatAmount, specFormatAmount, abs_of_nonneg h]
  · rw [formatAmount, if_neg (by norm_num), if_neg (by norm_num), if_neg (by norm_num),
      if_pos (by norm_num)]
    exact tfix_123
  · rw [formatAmount, if_neg (by norm_num), if_pos (by norm_num)]
    exact texp_inv20000

/-- Witness for C5 at the concrete nonnegative input `1/2`. -/
theorem c5_format_amount_witness :
    (0 : ℚ) ≤ 1 / 2 ∧ formatAmount (1 / 2 : ℚ) = specFormatAmount (1 / 2 : ℚ) :=
  ⟨by norm_num, (c5_format_amount (1 / 2) (by norm_num)).1⟩

/-- C6: on every successful validation of a submitted address (whatever
the fetch outcome), the address is prepended to the recent list, any
prior case-sensitively-equal occurrence is removed, and the list is
truncated to at most 5 entries; adding the same address twice leaves one
front entry, and adding a new address to a full list of 5 evicts the
oldest. -/
theorem c6_add_to_recent (a : String) (l l5 : List String) (s : AppState)
    (key : Option String) (r : FetchResult)
    (hpass : passesValidation s.address key = true)
    (hnot : a ∉ l5) (hlen : l5.length = 5) :
    (addToRecent a l).head? = some a ∧
    (addToRecent a l).count a = 1 ∧
    (addToRecent a l).length ≤ 5 ∧
    addToRecent a (addToRecent a l) = addToRecent a l ∧
    addToRecent a l5 = a :: l5.dropLast ∧
    (addToRecent a l5).length = 5 ∧
    (fetchBalances s key r).1.recentAddresses =
      addToRecent s.address s.recentAddresses := by
  have hmemf : ∀ b ∈ l.filter (fun addr => decide (addr ≠ a)), b ≠ a := by
    intro b hb
    have := (List.mem_filter.mp hb).2
    simpa using this
  refine ⟨rfl, ?_, ?_, ?_, ?_, ?_, ?_⟩
  · rw [addToRecent, List.take_succ_cons, List.count_cons_self]
    have hnm : a ∉ (l.filter (fun addr => decide (addr ≠ a))).take 4 := by
      intro hm
      exact hmemf a (List.mem_of_mem_take hm) rfl
    rw [List.count_eq_zero.mpr hnm]
  · rw [addToRecent]
    exact List.length_take_le 5 _
  · have hkey : addToRecent a l =
        a :: (l.filter (fun addr => decide (addr ≠ a))).take 4 := by
      rw [addToRecent, List.take_succ_cons]
    have hfa : decide (a ≠ a) = false := by simp
    have hft : ((l.filter (fun addr => decide (addr ≠ a))).take 4).filter
        (fun addr => decide (addr ≠ a)) =
        (l.filter (fun addr => decide (addr ≠ a))).take 4 := by
      refine List.filter_eq_self.mpr ?_
      intro b hb
      simpa using hmemf b (List.mem_of_mem_take hb)
    rw [hkey, addToRecent, List.filter_cons, hfa]
    simp only [Bool.false_eq_true, if_false]
    rw [hft, List.take_succ_cons, List.take_take]
    simp
  · rw [addToRecent]
    have hl5 : l5.filter (fun addr => decide (addr ≠ a)) = l5 := by
      refine List.filter_eq_self.mpr ?_
      intro b hb
      have hba : b ≠ a := fun hba => hnot (hba ▸ hb)
      simpa using hba
    have ht : l5.take 4 = l5.dropLast := by
      rw [List.dropLast_eq_take, hlen]
    rw [hl5, List.take_succ_cons, ht]
  · rw [addToRecent]
    have hl5 : l5.filter (fun addr => decide (addr ≠ a)) = l5 := by
      refine List.filter_eq_self.mpr ?_
      intro b hb
      have hba : b ≠ a := fun hba => hnot (hba ▸ hb)
      simpa using hba
    rw [hl5, List.take_succ_cons]
    simp [List.length_take, hlen]
  · cases r with
    | success tokens => rw [fetchBalances_success_eq s key tokens hpass]
    | failure e => rw [fetchBalances_failure_eq s key e hpass]

/-- Witness for C6 at concrete inputs. -/
theorem c6_add_to_recent_witness :
    (addToRecent "0xb" ["0xa", "0xb"]).head? = some "0xb" ∧
    (addToRecent "0xb" ["0xa", "0xb"]).count "0xb" = 1 ∧
    (addToRecent "0xb" ["0xa", "0xb"]).length ≤ 5 ∧
    addToRecent "0xb" (addToRecent "0xb" ["0xa", "0xb"]) =
      addToRecent "0xb" ["0xa", "0xb"] ∧
    addToRecent "0xb" ["x1", "x2", "x3", "x4", "x5"] =
      "0xb" :: (["x1", "x2", "x3", "x4", "x5"] : List String).dropLast ∧
    (addToRecent "0xb" ["x1", "x2", "x3", "x4", "x5"]).length = 5 ∧
    (fetchBalances { initialState [] with address := addr42 } (some "k")
      (FetchResult.success [])).1.recentAddresses =
      addToRecent addr42 (initialState []).recentAddresses :=
  c6_add_to_recent "0xb" ["0xa", "0xb"] ["x1", "x2", "x3", "x4", "x5"]
    { initialState [] with address := addr42 } (some "k") (FetchResult.success [])
    (by decide) (by decide) (by decide)

/-- C7: an HTTP 429 failure produces the dedicated rate-limit message
(a string distinct from the generic fallback); any other failure takes
the provider payload message when present and nonempty, else the
transport error text when present and nonempty, else the generic
fallback; and the state stores the selected message behind the `Hata: `
tag. -/
theorem c7_error_message (e : AxiosError) (s : AppState) (key : Option String)
    (hpass : passesValidation s.address key = true) :
    (e.responseStatus = some 429 → errorMessageFor e = msgRateLimit) ∧
    msgRateLimit ≠ msgGenericError ∧
    (e.responseStatus ≠ some 429 →
      (∀ m, e.responseDataMessage = some m → m ≠ "" → errorMessageFor e = m) ∧
      ((e.responseDataMessage = none ∨ e.responseDataMessage = some "") →
        ∀ m, e.message = some m → m ≠ "" → errorMessageFor e = m) ∧
      ((e.responseDataMessage = none ∨ e.responseDataMessage = some "") →
        (e.message = none ∨ e.message = some "") →
        errorMessageFor e = msgGenericError)) ∧
    (fetchBalances s key (FetchResult.failure e)).1.error =
      some ("Hata: " ++ errorMessageFor e) := by
  have hne : ∀ m : String, m ≠ "" → m.isEmpty = false := by
    intro m hm
    rw [Bool.eq_false_iff]
    intro hh
    exact hm ((String.isEmpty_iff m).mp hh)
  refine ⟨?_, by decide, ?_, ?_⟩
  · intro h
    rw [errorMessageFor, if_pos h]
  · intro h
    refine ⟨?_, ?_, ?_⟩
    · intro m hm hmne
      rw [errorMessageFor, if_neg h, hm]
      simp [jsOrStr, hne m hmne]
    · intro hd m hm hmne
      rw [errorMessageFor, if_neg h, hm]
      rcases hd with hd | hd <;>
        simp [hd, jsOrStr, hne m hmne, show ("" : String).isEmpty = true from rfl]
    · intro hd hm
      rw [errorMessageFor, if_neg h]
      rcases hd with hd | hd <;> rcases hm with hm | hm <;>
        simp [hd, hm, jsOrStr, show ("" : String).isEmpty = true from rfl]
  · rw [fetchBalances_failure_eq s key e hpass]

/-- Witness for C7 on four concrete failures: a 429, a payload message,
a transport message, and a bare HTTP 500. -/
theorem c7_error_message_witness :
    errorMessageFor (AxiosError.mk (some 429) none none) = msgRateLimit ∧
    errorMessageFor (AxiosError.mk (some 500) (some "Bad key") none) = "Bad key" ∧
    errorMessageFor (AxiosError.mk none none (some "Network Error")) =
      "Network Error" ∧
    errorMessageFor (AxiosError.mk (some 500) none none) = msgGenericError :=
  ⟨(c7_error_message _ { initialState [] with address := addr42 } (some "k")
      (by decide)).1 rfl,
   ((c7_error_message _ { initialState [] with address := addr42 } (some "k")
      (by decide)).2.2.1 (by decide)).1 "Bad key" rfl (by decide),
   (((c7_error_message _ { initialState [] with address := addr42 } (some "k")
      (by decide)).2.2.1 (by decide)).2.1 (Or.inl rfl)) "Network Error" rfl (by decide),
   (((c7_error_message _ { initialState [] with address := addr42 } (some "k")
      (by decide)).2.2.1 (by decide)).2.2 (Or.inl rfl)) (Or.inl rfl)⟩

/-- C8: a 41-character address fails validation with the invalid-address
message and zero network calls (with the key present); a valid
42-character address with the key unset fails with the key-not-found
message and zero network calls. -/
theorem c8_scenarios (s t : AppState) (key : Option String) (r r2 : FetchResult)
    (h41 : s.address.length = 41) (hkey : keyTruthy key = true)
    (hval : isValidEthereumAddress t.address = true) :
    (fetchBalances s key r).1.error = some msgInvalidAddress ∧
    (fetchBalances s key r).2 = 0 ∧
    (fetchBalances t none r2).1.error = some msgNoApiKey ∧
    (fetchBalances t none r2).2 = 0 := by
  have hne : s.address.isEmpty = false := by
    rw [Bool.eq_false_iff]
    intro hh
    rw [(String.isEmpty_iff _).mp hh] at h41
    exact absurd h41 (by decide)
  have hinv : isValidEthereumAddress s.address = false := by
    rw [Bool.eq_false_iff]
    intro hh
    have hspec := (isValidEthereumAddress_iff s.address).mp hh
    rw [hspec.1] at h41
    exact absurd h41 (by decide)
  have htne : t.address.isEmpty = false := by
    rw [Bool.eq_false_iff]
    intro hh
    have hspec := (isValidEthereumAddress_iff t.address).mp hval
    rw [(String.isEmpty_iff _).mp hh] at hspec
    exact absurd hspec.1 (by decide)
  refine ⟨?_, ?_, ?_, ?_⟩
  · unfold fetchBalances
    simp [hne, hkey, hinv]
  · unfold fetchBalances
    simp [hne, hkey, hinv]
  · unfold fetchBalances
    simp [htne, keyTruthy]
  · unfold fetchBalances
    simp [htne, keyTruthy]

/-- Witness for C8 at the concrete 41- and 42-character addresses. -/
theorem c8_scenarios_witness :
    ((addr41.length = 41 ∧ keyTruthy (some "k") = true ∧
      isValidEthereumAddress addr42 = true) ∧
     (fetchBalances { initialState [] with address := addr41 } (some "k")
        (FetchResult.success [])).1.error = some msgInvalidAddress ∧
     (fetchBalances { initialState [] with address := addr41 } (some "k")
        (FetchResult.success [])).2 = 0 ∧
     (fetchBalances { initialState [] with address := addr42 } none
        (FetchResult.success [])).1.error = some msgNoApiKey ∧
     (fetchBalances { initialState [] with address := addr42 } none
        (FetchResult.success [])).2 = 0) :=
  ⟨⟨by decide, by decide, by decide⟩,
   c8_scenarios { initialState [] with address := addr41 }
     { initialState [] with address := addr42 } (some "k")
     (FetchResult.success []) (FetchResult.success [])
     (by decide) (by decide) (by decide)⟩

/-- C9 (implicit filter): after a successful fetch, a token appears in
`allBalances` exactly when it was in the response, is not flagged as
possible spam, and has a strictly positive USD value; hence every
displayed entry (in either list) satisfies both conditions, and spam or
zero-value tokens are silently excluded. -/
theorem c9_valid_token_filter (s : AppState) (key : Option String)
    (tokens : List TokenBalance) (hpass : passesValidation s.address key = true) :
    (∀ t : TokenBalance,
      t ∈ (fetchBalances s key (FetchResult.success tokens)).1.allBalances ↔
        (t ∈ tokens ∧ t.possible_spam = false ∧ 0 < t.usd_value)) ∧
    (∀ t ∈ (fetchBalances s key (FetchResult.success tokens)).1.allBalances,
      t.possible_spam = false ∧ 0 < t.usd_value) ∧
    (∀ t ∈ (fetchBalances s key (FetchResult.success tokens)).1.balances,
      t.possible_spam = false ∧ 0 < t.usd_value) := by
  rw [fetchBalances_success_eq s key tokens hpass]
  have hmem : ∀ t : TokenBalance,
      t ∈ sortByUsdDesc (tokens.filter isValidToken) ↔
        (t ∈ tokens ∧ t.possible_spam = false ∧ 0 < t.usd_value) := by
    intro t
    rw [mem_sortByUsdDesc, List.mem_filter]
    simp [isValidToken]
  refine ⟨hmem, fun t ht => ((hmem t).mp ht).2, fun t ht => ?_⟩
  exact ((hmem t).mp (List.mem_filter.mp ht).1).2

/-- Witness for C9: a spam token and a zero-value token are dropped
while an ordinary token is kept. -/
theorem c9_valid_token_filter_witness :
    passesValidation addr42 (some "k") = true ∧
    (∀ t : TokenBalance,
      t ∈ (fetchBalances { initialState [] with address := addr42 } (some "k")
        (FetchResult.success [mkToken "S" true 50, mkToken "Z" false 0,
          mkToken "A" false 50])).1.allBalances ↔
        (t ∈ [mkToken "S" true 50, mkToken "Z" false 0, mkToken "A" false 50] ∧
          t.possible_spam = false ∧ 0 < t.usd_value)) ∧
    (∀ t ∈ (fetchBalances { initialState [] with address := addr42 } (some "k")
        (FetchResult.success [mkToken "S" true 50, mkToken "Z" false 0,
          mkToken "A" false 50])).1.allBalances,
      t.possible_spam = false ∧ 0 < t.usd_value) ∧
    (∀ t ∈ (fetchBalances { initialState [] with address := addr42 } (some "k")
        (FetchResult.success [mkToken "S" true 50, mkToken "Z" false 0,
          mkToken "A" false 50])).1.balances,
      t.possible_spam = false ∧ 0 < t.usd_value) :=
  ⟨by decide,
   c9_valid_token_filter { initialState [] with address := addr42 } (some "k")
     [mkToken "S" true 50, mkToken "Z" false 0, mkToken "A" false 50] (by decide)⟩

/-- Pointwise description of a page upsert: the entry stored at a key is
the conversion of the last page token with that id, and keys no page
token touches keep their previous value. -/
theorem upsertPage_apply (m : TokenMap) (page : List RawMarketToken) (i : String) :
    upsertPage m page i =
      (page.reverse.find? (fun t => t.id == i)).elim (m i)
        (fun t => some (toTopToken t)) := by
  induction page generalizing m with
  | nil => rfl
  | cons t ts ih =>
    show upsertPage (fun j => if j = t.id then some (toTopToken t) else m j) ts i = _
    rw [ih, List.reverse_cons, List.find?_append]
    cases h : ts.reverse.find? (fun u => u.id == i) with
    | some u => simp [h]
    | none =>
      simp only [h, Option.none_or]
      by_cases hit : t.id = i
      · simp [List.find?, hit]
      · have hbeq : (t.id == i) = false := by
          simp [hit]
        simp [List.find?, hbeq, Option.elim]
        intro hcontra
        exact absurd hcontra.symm hit

/-- C10: the market-table page upsert is idempotent — applying the same
page twice leaves the mapping exactly as after one application. -/
theorem c10_upsert_idempotent (m : TokenMap) (page : List RawMarketToken) :
    upsertPage (upsertPage m page) page = upsertPage m page := by
  funext i
  rw [upsertPage_apply (upsertPage m page) page i, upsertPage_apply m page i]
  cases h : page.reverse.find? (fun t => t.id == i) with
  | some t => simp [h]
  | none =>
    simp only [h, Option.elim]
